import Mathlib

/-!
Verification of the bb_dealer deal-aggregation pipeline.

Shallow embedding of the JavaScript sources:
* `lib/categories.js`   — category table, keyword classifier, badge thresholds
* `lib/normalize.js`    — canonical Deal construction (`createDeal`, `calculateDiscount`)
* `lib/deals.js`        — the aggregator (`fetchAllDeals`)
* the file TTL cache    — `read` / `write` keyed by source
* `services/memoryCache.js` / `services/bestbuyAvailability.js` — LRU TTL cache and
  `getStoreAvailability`
* the `/api/stores/` nationwide scan handler — dedup by store id

JavaScript numbers are modelled as `ℚ`, timestamps (`Date.now()`) as `ℤ`,
absent / `undefined` fields as `Option`, and rejected promises as `Except String`.
`Math.round` rounds half toward +∞, i.e. `⌊x + 1/2⌋`.
-/

namespace BBDealer

/-- JavaScript `Math.round`: round half away from zero toward +∞, `⌊q + 1/2⌋`. -/
def jsRound (q : ℚ) : ℤ := (q + 1/2).floor

/-- JS `v || dflt` for an optional string: `undefined` and `""` are falsy. -/
def jsOrStr (v : Option String) (dflt : String) : String :=
  match v with
  | some s => if s = "" then dflt else s
  | none => dflt

/-- JS `v || fallback` where both sides are nullable strings. -/
def jsOrOptStr (v : Option String) (fallback : Option String) : Option String :=
  match v with
  | some s => if s = "" then fallback else some s
  | none => fallback

/-- JS `v || dflt` for an optional number: `undefined` and `0` are falsy. -/
def jsOrNum (v : Option ℚ) (dflt : ℚ) : ℚ :=
  match v with
  | some q => if q = 0 then dflt else q
  | none => dflt

/-- JS `v || dflt` for an optional integer timestamp. -/
def jsOrInt (v : Option ℤ) (dflt : ℤ) : ℤ :=
  match v with
  | some t => if t = 0 then dflt else t
  | none => dflt

/-! ## `lib/categories.js` -/

/-- One entry of the `CATEGORIES` table. -/
structure Category where
  name : String
  keywords : List String
  goodDeal : ℚ
  greatDeal : ℚ
deriving DecidableEq, Repr

/-- The ordered `CATEGORIES` table (order matters for `detectCategory`). -/
def CATEGORIES : List (String × Category) :=
  [ ("laptops",
     ⟨"Laptops",
      ["laptop", "notebook",
       "macbook", "macbook pro", "macbook air",
       "chromebook", "ultrabook",
       "omnibook", "spectre", "envy", "pavilion", "omen",
       "thinkpad", "ideapad", "yoga", "legion",
       "xps", "inspiron", "latitude", "alienware",
       "zenbook", "vivobook", "rog", "tuf",
       "swift", "nitro", "predator",
       "surface laptop", "surface book",
       "gram",
       "razer blade"],
      20, 25⟩),
    ("desktops",
     ⟨"Desktops",
      ["desktop", "tower", "all-in-one", "aio",
       "imac", "mac mini", "mac studio", "mac pro",
       "optiplex", "precision tower",
       "thinkcentre", "thinkstation",
       "prodesk", "elitedesk", "z workstation",
       "intel nuc", "mini pc", "beelink", "geekom",
       "raspberry pi"],
      20, 30⟩),
    ("tablets",
     ⟨"Tablets",
      ["ipad", "ipad pro", "ipad air", "tablet", "surface pro", "surface go", "galaxy tab"],
      20, 25⟩),
    ("memory",
     ⟨"Memory",
      ["ram module", "memory module", "ddr4", "ddr5", "sodimm", "dimm"],
      25, 40⟩),
    ("storage",
     ⟨"Storage",
      ["ssd", "nvme", "nas", "hard drive", "external drive", "flash drive", "portable drive"],
      25, 40⟩) ]

/-- `CATEGORIES[categoryId]` — lookup by id in the table. -/
def findCategory (id : String) : Option Category :=
  (CATEGORIES.find? (fun p => p.1 == id)).map (·.2)

/-- `detectCategory(text)`: first table entry (in order) one of whose keywords occurs
in the lowercased text; `null` when none matches. -/
def detectCategory (text : String) : Option String :=
  let lowerText := text.toLower
  (CATEGORIES.find? (fun p =>
    p.2.keywords.any (fun kw => lowerText.containsSubstr kw.toSubstring))).map (·.1)

/-- The `(goodDeal, greatDeal)` pair returned by `getThresholds`. -/
structure Thresholds where
  goodDeal : ℚ
  greatDeal : ℚ
deriving DecidableEq, Repr

/-- `getThresholds(categoryId)`: the table thresholds, or the `(20, 30)` default
for unknown ids (including `null`). -/
def getThresholds (categoryId : Option String) : Thresholds :=
  match categoryId.bind findCategory with
  | none => ⟨20, 30⟩
  | some c => ⟨c.goodDeal, c.greatDeal⟩

/-- `getDealBadge(discount, categoryId)`. -/
def getDealBadge (discount : ℚ) (categoryId : Option String) : Option String :=
  let t := getThresholds categoryId
  if t.greatDeal ≤ discount then some "great"
  else if t.goodDeal ≤ discount then some "good"
  else none

/-! ## `lib/normalize.js` -/

/-- `calculateDiscount(original, current)`: 0 when `!original || original <= 0`
(over ℚ that is exactly `original ≤ 0`), else `Math.round(((original - current) / original) * 100)`. -/
def calculateDiscount (original current : ℚ) : ℚ :=
  if original ≤ 0 then 0
  else (jsRound ((original - current) / original * 100) : ℚ)

/-- The raw `fields` object accepted by `createDeal`; every field may be absent. -/
structure RawFields where
  id : Option String := none
  source : Option String := none
  category : Option String := none
  name : Option String := none
  brand : Option String := none
  originalPrice : Option ℚ := none
  currentPrice : Option ℚ := none
  discount : Option ℚ := none
  condition : Option String := none
  availability : Option String := none
  url : Option String := none
  image : Option String := none
  fetchedAt : Option ℤ := none
  sku : Option String := none
  listingId : Option String := none
  processor : Option String := none
  modelType : Option String := none
  screenSize : Option String := none
  ram : Option String := none
  storage : Option String := none
deriving DecidableEq, Repr

/-- A raw `fields` object with every field absent. -/
def emptyRaw : RawFields := {}

/-- The unified Deal record returned by `createDeal`. -/
structure Deal where
  id : Option String
  source : Option String
  category : Option String
  name : String
  brand : String
  originalPrice : ℚ
  currentPrice : ℚ
  discount : ℚ
  savings : ℚ
  condition : String
  availability : String
  url : String
  image : String
  dealBadge : Option String
  fetchedAt : ℤ
  sku : Option String
  listingId : Option String
  processor : Option String
  modelType : Option String
  screenSize : Option String
  ram : Option String
  storage : Option String
deriving DecidableEq, Repr

/-- `createDeal(fields)` from `lib/normalize.js`; `now` stands for `Date.now()`. -/
def createDeal (now : ℤ) (fields : RawFields) : Deal :=
  let category := jsOrOptStr fields.category (detectCategory (jsOrStr fields.name ""))
  let originalPrice := jsOrNum fields.originalPrice 0
  let currentPrice := jsOrNum fields.currentPrice 0
  let discount := jsOrNum fields.discount (calculateDiscount originalPrice currentPrice)
  let savings := originalPrice - currentPrice
  let dealBadge := getDealBadge discount category
  { id := fields.id
    source := fields.source
    category := category
    name := jsOrStr fields.name ""
    brand := jsOrStr fields.brand ""
    originalPrice := originalPrice
    currentPrice := currentPrice
    discount := discount
    savings := savings
    condition := jsOrStr fields.condition "open-box"
    availability := jsOrStr fields.availability "online"
    url := jsOrStr fields.url ""
    image := jsOrStr fields.image ""
    dealBadge := dealBadge
    fetchedAt := jsOrInt fields.fetchedAt now
    sku := fields.sku
    listingId := fields.listingId
    processor := fields.processor
    modelType := fields.modelType
    screenSize := fields.screenSize
    ram := fields.ram
    storage := fields.storage }

/-! ### Claims C1–C3 -/

/-- Every table entry has `goodDeal ≤ greatDeal`. -/
theorem categories_thresholds_le :
    ∀ p ∈ CATEGORIES, p.2.goodDeal ≤ p.2.greatDeal := by decide

/-- `getThresholds` always yields `goodDeal ≤ greatDeal`. -/
theorem getThresholds_le (c : Option String) :
    (getThresholds c).goodDeal ≤ (getThresholds c).greatDeal := by
  unfold getThresholds
  cases h : c.bind findCategory with
  | none => norm_num
  | some cat =>
    cases c with
    | none => simp at h
    | some id =>
      replace h : findCategory id = some cat := h
      have hmem : ∃ p ∈ CATEGORIES, p.2 = cat := by
        unfold findCategory at h
        cases hf : CATEGORIES.find? (fun p => p.1 == id) with
        | none => rw [hf] at h; simp at h
        | some p =>
          rw [hf] at h
          exact ⟨p, List.mem_of_find?_eq_some hf, by simpa using h⟩
      obtain ⟨p, hp, rfl⟩ := hmem
      exact categories_thresholds_le p hp

/-- C1 counterexample: a truthy upstream `discount` field (50) is used as-is
even though the computed value from the prices would be 10. -/
theorem createDeal_discount_not_always_computed :
    (createDeal 0 { emptyRaw with
        originalPrice := some 100, currentPrice := some 90, discount := some 50 }).discount
      ≠ (jsRound (((100 : ℚ) - 90) / 100 * 100) : ℚ) := by
  have h1 : (createDeal 0 { emptyRaw with
      originalPrice := some 100, currentPrice := some 90, discount := some 50 }).discount
      = 50 := by
    norm_num [createDeal, jsOrNum]
  have h2 : (jsRound (((100 : ℚ) - 90) / 100 * 100) : ℚ) = 10 := by
    norm_num [jsRound, Rat.floor]
  rw [h1, h2]
  norm_num

/-- C1 (amended): whenever the raw `discount` field is absent or falsy (0), the
constructed Deal's discount equals `calculateDiscount` of the defaulted prices,
is exactly 0 when the original price is ≤ 0 (including 0 or absent), and equals
`round(100·(original−current)/original)` when the original price is positive. -/
theorem createDeal_discount_computed (now : ℤ) (f : RawFields)
    (h : f.discount = none ∨ f.discount = some 0) :
    (createDeal now f).discount
        = calculateDiscount (jsOrNum f.originalPrice 0) (jsOrNum f.currentPrice 0)
      ∧ (jsOrNum f.originalPrice 0 ≤ 0 → (createDeal now f).discount = 0)
      ∧ (0 < jsOrNum f.originalPrice 0 →
          (createDeal now f).discount
            = (jsRound ((jsOrNum f.originalPrice 0 - jsOrNum f.currentPrice 0)
                / jsOrNum f.originalPrice 0 * 100) : ℚ)) := by
  have hd : (createDeal now f).discount
      = calculateDiscount (jsOrNum f.originalPrice 0) (jsOrNum f.currentPrice 0) := by
    rcases h with h | h <;> simp [createDeal, jsOrNum, h]
  refine ⟨hd, ?_, ?_⟩
  · intro hle
    rw [hd]
    unfold calculateDiscount
    rw [if_pos hle]
  · intro hpos
    rw [hd]
    unfold calculateDiscount
    rw [if_neg (not_le.mpr hpos)]

/-- Witness for C1 at a concrete input (original 100, current 90, no raw discount). -/
theorem createDeal_discount_computed_witness :
    (createDeal 0 { emptyRaw with originalPrice := some 100, currentPrice := some 90 }).discount
        = calculateDiscount
            (jsOrNum ({ emptyRaw with
                originalPrice := some 100, currentPrice := some 90 } : RawFields).originalPrice 0)
            (jsOrNum ({ emptyRaw with
                originalPrice := some 100, currentPrice := some 90 } : RawFields).currentPrice 0)
      ∧ (jsOrNum ({ emptyRaw with
            originalPrice := some 100, currentPrice := some 90 } : RawFields).originalPrice 0 ≤ 0 →
          (createDeal 0 { emptyRaw with
              originalPrice := some 100, currentPrice := some 90 }).discount = 0)
      ∧ (0 < jsOrNum ({ emptyRaw with
            originalPrice := some 100, currentPrice := some 90 } : RawFields).originalPrice 0 →
          (createDeal 0 { emptyRaw with
              originalPrice := some 100, currentPrice := some 90 }).discount
            = (jsRound ((jsOrNum ({ emptyRaw with
                  originalPrice := some 100, currentPrice := some 90 } : RawFields).originalPrice 0
                - jsOrNum ({ emptyRaw with
                  originalPrice := some 100, currentPrice := some 90 } : RawFields).currentPrice 0)
                / jsOrNum ({ emptyRaw with
                  originalPrice := some 100, currentPrice := some 90 } : RawFields).originalPrice 0
                * 100) : ℚ)) :=
  createDeal_discount_computed 0 _ (Or.inl rfl)

/-- C2 counterexample: supplying a truthy raw `discount` (50) yields a different
constructed Deal than omitting it (discount 50 versus computed 10). -/
theorem createDeal_not_discount_agnostic :
    createDeal 0 { emptyRaw with
        originalPrice := some 100, currentPrice := some 90, discount := some 50 }
      ≠ createDeal 0 { emptyRaw with
        originalPrice := some 100, currentPrice := some 90, discount := none } := by
  intro h
  have h2 := congrArg Deal.discount h
  have ha : (createDeal 0 { emptyRaw with
      originalPrice := some 100, currentPrice := some 90, discount := some 50 }).discount
      = 50 := by
    norm_num [createDeal, jsOrNum]
  have hb : (createDeal 0 { emptyRaw with
      originalPrice := some 100, currentPrice := some 90, discount := none }).discount
      = 10 := by
    norm_num [createDeal, jsOrNum, calculateDiscount, jsRound, Rat.floor]
  rw [ha, hb] at h2
  norm_num at h2

/-- C2 (amended): only a falsy raw `discount` (absent or 0) is ignored — supplying
`discount = 0` yields exactly the Deal built with `discount` omitted — while a
truthy raw `discount` is trusted verbatim as the constructed Deal's discount. -/
theorem createDeal_falsy_discount_ignored (now : ℤ) (f : RawFields) (d : ℚ) :
    createDeal now { f with discount := some 0 } = createDeal now { f with discount := none }
      ∧ (d ≠ 0 → (createDeal now { f with discount := some d }).discount = d) := by
  refine ⟨rfl, fun hd => ?_⟩
  simp [createDeal, jsOrNum, hd]

/-- Witness for C2 at a concrete input (raw discount 7 is kept verbatim). -/
theorem createDeal_falsy_discount_ignored_witness :
    createDeal 0 { emptyRaw with discount := some 0 }
        = createDeal 0 { emptyRaw with discount := none }
      ∧ ((7 : ℚ) ≠ 0 → (createDeal 0 { emptyRaw with discount := some 7 }).discount = 7) :=
  createDeal_falsy_discount_ignored 0 emptyRaw 7

/-- C3: badge is "great" iff the discount is at least the category's great
threshold, "good" iff at least the good threshold but below the great one, none
otherwise; ids not in the table (including null) use defaults good=20, great=30;
and the table thresholds are the ones from `lib/categories.js`. -/
theorem getDealBadge_spec (d : ℚ) (c : Option String) :
    (getDealBadge d c = some "great" ↔ (getThresholds c).greatDeal ≤ d)
      ∧ (getDealBadge d c = some "good"
          ↔ ((getThresholds c).goodDeal ≤ d ∧ d < (getThresholds c).greatDeal))
      ∧ (getDealBadge d c = none ↔ d < (getThresholds c).goodDeal)
      ∧ getThresholds none = ⟨20, 30⟩
      ∧ (∀ id : String, findCategory id = none → getThresholds (some id) = ⟨20, 30⟩)
      ∧ getThresholds (some "laptops") = ⟨20, 25⟩
      ∧ getThresholds (some "desktops") = ⟨20, 30⟩
      ∧ getThresholds (some "tablets") = ⟨20, 25⟩
      ∧ getThresholds (some "memory") = ⟨25, 40⟩
      ∧ getThresholds (some "storage") = ⟨25, 40⟩ := by
  have hle := getThresholds_le c
  refine ⟨?_, ?_, ?_, rfl, ?_, rfl, rfl, rfl, rfl, rfl⟩
  · simp only [getDealBadge]
    split_ifs with h1 h2
    · exact iff_of_true rfl h1
    · exact iff_of_false (fun heq => absurd (Option.some.inj heq) (by decide)) h1
    · exact iff_of_false (fun heq => by cases heq) h1
  · simp only [getDealBadge]
    split_ifs with h1 h2
    · exact iff_of_false (fun heq => absurd (Option.some.inj heq) (by decide))
        (fun hc => absurd hc.2 (not_lt.mpr h1))
    · exact iff_of_true rfl ⟨h2, not_le.mp h1⟩
    · exact iff_of_false (fun heq => by cases heq) (fun hc => absurd hc.1 h2)
  · simp only [getDealBadge]
    split_ifs with h1 h2
    · exact iff_of_false (fun heq => by cases heq) (not_lt.mpr (hle.trans h1))
    · exact iff_of_false (fun heq => by cases heq) (not_lt.mpr h2)
    · exact iff_of_true rfl (not_le.mp h2)
  · intro id h
    unfold getThresholds
    have hb : (some id).bind findCategory = none := h
    rw [hb]

/-- Witness for C3: unknown category id "zzz" uses the (20, 30) defaults and a
30% discount earns the "great" badge there. -/
theorem getDealBadge_spec_witness :
    getDealBadge 30 (some "zzz") = some "great"
      ∧ getThresholds (some "zzz") = ⟨20, 30⟩ := by
  have h := getDealBadge_spec 30 (some "zzz")
  have hz : getThresholds (some "zzz") = ⟨20, 30⟩ := h.2.2.2.2.1 "zzz" rfl
  exact ⟨h.1.mpr (by rw [hz]), hz⟩

/-! ## `lib/deals.js` — the aggregator -/

/-- Outcome of one adapter's `await adapter.fetchDeals(...)`: a resolved deal
list or a rejection message. The adapter table is a parameter of the embedding
(in the source it is the module-level `ADAPTERS` object binding adapter modules
whose `fetchDeals` performs network and cache I/O). -/
abbrev AdapterOutcome := Except String (List Deal)

/-- One `results.sources[source]` record. The wall-clock `duration` field is
elided: it is `Date.now()` differencing with no effect on any other field. -/
structure SourceStats where
  count : ℕ
  success : Bool
  error : Option String := none
deriving DecidableEq, Repr

/-- The `results` object built by `fetchAllDeals`. -/
structure AggregateResults where
  deals : List Deal
  errors : List (String × String)
  sources : List (String × SourceStats)
deriving DecidableEq, Repr

/-- The initial `results` object. -/
def emptyResults : AggregateResults := ⟨[], [], []⟩

/-- One iteration of the `for (const source of sources)` loop in `fetchAllDeals`. -/
def processSource (adapters : String → Option AdapterOutcome)
    (r : AggregateResults) (source : String) : AggregateResults :=
  match adapters source with
  | none =>
      { r with errors := r.errors ++ [(source, "Unknown source: " ++ source)] }
  | some (Except.ok ds) =>
      { r with deals := r.deals ++ ds,
               sources := r.sources ++ [(source, ⟨ds.length, true, none⟩)] }
  | some (Except.error e) =>
      { r with errors := r.errors ++ [(source, e)],
               sources := r.sources ++ [(source, ⟨0, false, some e⟩)] }

/-- The source loop of `fetchAllDeals`, before the final sort. -/
def collectSources (adapters : String → Option AdapterOutcome)
    (sources : List String) : AggregateResults :=
  sources.foldl (processSource adapters) emptyResults

/-- JS sort comparator `(a, b) => b.discount - a.discount`: `a` may stay before
`b` exactly when the comparator is ≤ 0. -/
def dealLE (a b : Deal) : Bool := decide (b.discount ≤ a.discount)

/-- `fetchAllDeals(config)`: run every source, then
`results.deals.sort((a, b) => b.discount - a.discount)` (a stable sort per the
ECMAScript specification, modelled by `List.mergeSort`). -/
def fetchAllDeals (adapters : String → Option AdapterOutcome)
    (sources : List String) : AggregateResults :=
  let r := collectSources adapters sources
  { r with deals := r.deals.mergeSort dealLE }

theorem dealLE_trans : ∀ a b c : Deal, dealLE a b → dealLE b c → dealLE a c := by
  intro a b c h1 h2
  simp only [dealLE, decide_eq_true_eq] at *
  exact h2.trans h1

theorem dealLE_total : ∀ a b : Deal, dealLE a b || dealLE b a := by
  intro a b
  simp only [dealLE, Bool.or_eq_true, decide_eq_true_eq]
  exact (le_total b.discount a.discount)

/-- Folding the source loop from any accumulator appends componentwise. -/
theorem foldl_processSource_append (adapters : String → Option AdapterOutcome)
    (r : AggregateResults) (ss : List String) :
    ss.foldl (processSource adapters) r
      = ⟨r.deals ++ (collectSources adapters ss).deals,
         r.errors ++ (collectSources adapters ss).errors,
         r.sources ++ (collectSources adapters ss).sources⟩ := by
  induction ss generalizing r with
  | nil => simp [collectSources, emptyResults]
  | cons s t ih =>
    simp only [collectSources, List.foldl_cons] at *
    rw [ih (processSource adapters r s), ih (processSource adapters emptyResults s)]
    cases h : adapters s with
    | none => simp [processSource, h, emptyResults]
    | some res => cases res <;> simp [processSource, h, emptyResults]

/-- A source whose adapter resolves contributes all its deals to the collection. -/
theorem mem_collectSources_deals (adapters : String → Option AdapterOutcome)
    (ss : List String) (s : String) (ds : List Deal) (d : Deal)
    (hs : s ∈ ss) (ha : adapters s = some (Except.ok ds)) (hd : d ∈ ds) :
    d ∈ (collectSources adapters ss).deals := by
  induction ss with
  | nil => cases hs
  | cons a t ih =>
    rw [collectSources, List.foldl_cons, foldl_processSource_append]
    rcases List.mem_cons.mp hs with rfl | hs'
    · simp [processSource, ha, emptyResults, hd]
    · simpa using Or.inr (ih hs')

/-- A source whose adapter rejects lands in the error list with its message. -/
theorem mem_collectSources_errors (adapters : String → Option AdapterOutcome)
    (ss : List String) (s : String) (e : String)
    (hs : s ∈ ss) (ha : adapters s = some (Except.error e)) :
    (s, e) ∈ (collectSources adapters ss).errors := by
  induction ss with
  | nil => cases hs
  | cons a t ih =>
    rw [collectSources, List.foldl_cons, foldl_processSource_append]
    rcases List.mem_cons.mp hs with rfl | hs'
    · simp [processSource, ha, emptyResults]
    · simpa using Or.inr (ih hs')

/-- A rejecting source is recorded in the stats with count 0 and its message. -/
theorem mem_collectSources_stats (adapters : String → Option AdapterOutcome)
    (ss : List String) (s : String) (e : String)
    (hs : s ∈ ss) (ha : adapters s = some (Except.error e)) :
    (s, (⟨0, false, some e⟩ : SourceStats)) ∈ (collectSources adapters ss).sources := by
  induction ss with
  | nil => cases hs
  | cons a t ih =>
    rw [collectSources, List.foldl_cons, foldl_processSource_append]
    rcases List.mem_cons.mp hs with rfl | hs'
    · simp [processSource, ha, emptyResults]
    · simpa using Or.inr (ih hs')

/-- Every listed source is processed: it gets a stats record, or (when no
adapter exists for it) an unknown-source error. -/
theorem collectSources_processes_all (adapters : String → Option AdapterOutcome)
    (ss : List String) (s : String) (hs : s ∈ ss) :
    (∃ st, (s, st) ∈ (collectSources adapters ss).sources)
      ∨ (s, "Unknown source: " ++ s) ∈ (collectSources adapters ss).errors := by
  induction ss with
  | nil => cases hs
  | cons a t ih =>
    rw [collectSources, List.foldl_cons, foldl_processSource_append]
    rcases List.mem_cons.mp hs with rfl | hs'
    · cases h : adapters s with
      | none => right; simp [processSource, h, emptyResults]
      | some res =>
        cases res with
        | ok ds => exact Or.inl ⟨⟨ds.length, true, none⟩, by simp [processSource, h, emptyResults]⟩
        | error e => exact Or.inl ⟨⟨0, false, some e⟩, by simp [processSource, h, emptyResults]⟩
    · rcases ih hs' with ⟨st, hst⟩ | herr
      · exact Or.inl ⟨st, by simp [hst]⟩
      · right; simp [herr]

/-- A rejecting source contributes no deals: deleting it from the source list
leaves the collected deal sequence unchanged. -/
theorem collectSources_error_no_deals (adapters : String → Option AdapterOutcome)
    (pre post : List String) (s : String) (e : String)
    (ha : adapters s = some (Except.error e)) :
    (collectSources adapters (pre ++ s :: post)).deals
      = (collectSources adapters (pre ++ post)).deals := by
  have hdeals : ∀ (r : AggregateResults) (ss : List String),
      (ss.foldl (processSource adapters) r).deals
        = r.deals ++ (collectSources adapters ss).deals := by
    intro r ss
    rw [foldl_processSource_append]
  unfold collectSources
  rw [List.foldl_append, List.foldl_append, List.foldl_cons]
  rw [hdeals (processSource adapters
        (List.foldl (processSource adapters) emptyResults pre) s) post,
      hdeals (List.foldl (processSource adapters) emptyResults pre) post]
  have hstep : (processSource adapters
        (List.foldl (processSource adapters) emptyResults pre) s).deals
      = (List.foldl (processSource adapters) emptyResults pre).deals := by
    simp [processSource, ha]
  rw [hstep]

/-- C5: the aggregator's final deal array is sorted in descending discount
order, is a permutation of the deals appended while iterating the sources, and
deals of equal discount keep their appended relative order (the subsequence at
each discount value is unchanged — no secondary sort key). -/
theorem fetchAllDeals_sorted_stable (adapters : String → Option AdapterOutcome)
    (sources : List String) :
    (fetchAllDeals adapters sources).deals.Pairwise
        (fun a b => b.discount ≤ a.discount)
      ∧ (fetchAllDeals adapters sources).deals.Perm
          (collectSources adapters sources).deals
      ∧ ∀ q : ℚ,
        (fetchAllDeals adapters sources).deals.filter (fun d => decide (d.discount = q))
          = (collectSources adapters sources).deals.filter
              (fun d => decide (d.discount = q)) := by
  have hfd : (fetchAllDeals adapters sources).deals
      = (collectSources adapters sources).deals.mergeSort dealLE := rfl
  set l := (collectSources adapters sources).deals with hl
  refine ⟨?_, ?_, ?_⟩
  · rw [hfd]
    have hs := List.sorted_mergeSort dealLE_trans dealLE_total l
    exact hs.imp (fun h => of_decide_eq_true h)
  · rw [hfd]
    exact List.mergeSort_perm l dealLE
  · intro q
    rw [hfd]
    set p : Deal → Bool := fun d => decide (d.discount = q) with hp
    have hall : ∀ x ∈ l.filter p, ∀ y ∈ l.filter p, dealLE x y := by
      intro x hx y hy
      have hx' := (List.mem_filter.mp hx).2
      have hy' := (List.mem_filter.mp hy).2
      simp only [hp, decide_eq_true_eq] at hx' hy'
      simp [dealLE, hx', hy']
    have hpw : (l.filter p).Pairwise (fun a b => dealLE a b) :=
      List.pairwise_of_forall_mem_list hall
    have hsub : List.Sublist (l.filter p) (l.mergeSort dealLE) :=
      List.sublist_mergeSort dealLE_trans dealLE_total hpw (List.filter_sublist l)
    have hself : (l.filter p).filter p = l.filter p :=
      List.filter_eq_self.mpr (fun a ha => (List.mem_filter.mp ha).2)
    have hsub2 : List.Sublist (l.filter p) ((l.mergeSort dealLE).filter p) := by
      have hts := List.Sublist.filter p hsub
      rwa [hself] at hts
    have hperm : ((l.mergeSort dealLE).filter p).Perm (l.filter p) :=
      (List.mergeSort_perm l dealLE).filter p
    exact (List.Sublist.eq_of_length hsub2 hperm.length_eq.symm).symm

/-- C6: a rejecting adapter does not abort the batch — every deal of a
resolving source is still present, the failing source is recorded in the error
list with its message and a count-0 stats entry, it contributes no deals, and
every listed source still gets processed (a stats record or an unknown-source
error). -/
theorem fetchAllDeals_isolates_failures (adapters : String → Option AdapterOutcome)
    (pre post : List String) (s₁ s₂ : String) (e : String) (ds : List Deal)
    (h₁ : adapters s₁ = some (Except.error e))
    (h₂ : adapters s₂ = some (Except.ok ds))
    (hmem : s₂ ∈ pre ++ s₁ :: post) :
    (∀ d ∈ ds, d ∈ (fetchAllDeals adapters (pre ++ s₁ :: post)).deals)
      ∧ (s₁, e) ∈ (fetchAllDeals adapters (pre ++ s₁ :: post)).errors
      ∧ (s₁, (⟨0, false, some e⟩ : SourceStats))
          ∈ (fetchAllDeals adapters (pre ++ s₁ :: post)).sources
      ∧ (collectSources adapters (pre ++ s₁ :: post)).deals
          = (collectSources adapters (pre ++ post)).deals
      ∧ (∀ s ∈ pre ++ s₁ :: post,
          (∃ st, (s, st) ∈ (fetchAllDeals adapters (pre ++ s₁ :: post)).sources)
          ∨ (s, "Unknown source: " ++ s)
              ∈ (fetchAllDeals adapters (pre ++ s₁ :: post)).errors) := by
  have hs₁ : s₁ ∈ pre ++ s₁ :: post := List.mem_append_right _ (List.mem_cons_self _ _)
  refine ⟨?_, ?_, ?_, ?_, ?_⟩
  · intro d hd
    have hcol := mem_collectSources_deals adapters (pre ++ s₁ :: post) s₂ ds d hmem h₂ hd
    show d ∈ (collectSources adapters (pre ++ s₁ :: post)).deals.mergeSort dealLE
    exact List.mem_mergeSort.mpr hcol
  · exact mem_collectSources_errors adapters (pre ++ s₁ :: post) s₁ e hs₁ h₁
  · exact mem_collectSources_stats adapters (pre ++ s₁ :: post) s₁ e hs₁ h₁
  · exact collectSources_error_no_deals adapters pre post s₁ e h₁
  · intro s hs
    exact collectSources_processes_all adapters (pre ++ s₁ :: post) s hs

/-- A concrete deal record used to exercise the aggregator claims. -/
def sampleDeal : Deal :=
  ⟨some "d1", some "good2", none, "Sample", "", 100, 80, 20, 20, "open-box",
   "online", "", "", some "good", 0, none, none, none, none, none, none, none⟩

/-- A concrete two-source adapter table: "bad" rejects, "good2" resolves. -/
def demoAdapters : String → Option AdapterOutcome := fun s =>
  if s = "bad" then some (Except.error "boom")
  else if s = "good2" then some (Except.ok [sampleDeal])
  else none

/-- Witness for C6: with "bad" rejecting and "good2" resolving, the deal
survives, the failure is recorded, and the stats entry has count 0. -/
theorem fetchAllDeals_isolates_failures_witness :
    sampleDeal ∈ (fetchAllDeals demoAdapters ["bad", "good2"]).deals
      ∧ ("bad", "boom") ∈ (fetchAllDeals demoAdapters ["bad", "good2"]).errors
      ∧ ("bad", (⟨0, false, some "boom"⟩ : SourceStats))
          ∈ (fetchAllDeals demoAdapters ["bad", "good2"]).sources := by
  have h := fetchAllDeals_isolates_failures demoAdapters [] ["good2"] "bad" "good2"
    "boom" [sampleDeal] rfl rfl (by decide)
  exact ⟨h.1 sampleDeal (by decide), h.2.1, h.2.2.1⟩

/-! ## The file TTL cache (`cache/<source>.json`) -/

/-- `DEFAULT_TTL = 60 * 60 * 1000` — one hour in milliseconds. -/
def DEFAULT_TTL : ℤ := 60 * 60 * 1000

/-- The parsed contents of one `cache/<source>.json` file. -/
structure FileCacheEntry (α : Type) where
  timestamp : ℤ
  deals : α
deriving DecidableEq, Repr

/-- The cache directory: one optional record per source key. -/
def FileStore (α : Type) := String → Option (FileCacheEntry α)

/-- The object returned by a successful `read(source)`. -/
structure FileReadResult (α : Type) where
  deals : α
  timestamp : ℤ
  age : ℤ
  expired : Bool
deriving DecidableEq, Repr

/-- `read(source)`: null when the file is absent, otherwise the payload with
`age = now - timestamp` and `expired = age > DEFAULT_TTL` computed at read time. -/
def fileCacheRead {α : Type} (store : FileStore α) (now : ℤ) (source : String) :
    Option (FileReadResult α) :=
  match store source with
  | none => none
  | some data =>
      some ⟨data.deals, data.timestamp, now - data.timestamp,
            decide (DEFAULT_TTL < now - data.timestamp)⟩

/-- `write(source, deals)`: overwrite the source's file with a fresh timestamp. -/
def fileCacheWrite {α : Type} (store : FileStore α) (now : ℤ) (source : String)
    (deals : α) : FileStore α :=
  fun s => if s = source then some ⟨now, deals⟩ else store s

/-- C4: write-then-read round-trip. Reading the key before the TTL has elapsed
returns `expired = false` with the identical payload; reading after the TTL has
elapsed returns `expired = true`, still with the written payload. -/
theorem fileCache_roundtrip {α : Type} (store : FileStore α) (t₀ t₁ : ℤ)
    (source : String) (deals : α) :
    (t₁ - t₀ < DEFAULT_TTL →
      fileCacheRead (fileCacheWrite store t₀ source deals) t₁ source
        = some ⟨deals, t₀, t₁ - t₀, false⟩)
      ∧ (DEFAULT_TTL < t₁ - t₀ →
        fileCacheRead (fileCacheWrite store t₀ source deals) t₁ source
          = some ⟨deals, t₀, t₁ - t₀, true⟩) := by
  have hread : fileCacheRead (fileCacheWrite store t₀ source deals) t₁ source
      = some ⟨deals, t₀, t₁ - t₀, decide (DEFAULT_TTL < t₁ - t₀)⟩ := by
    unfold fileCacheRead fileCacheWrite
    rw [if_pos rfl]
  constructor
  · intro h
    rw [hread, decide_eq_false (not_lt.mpr (le_of_lt h))]
  · intro h
    rw [hread, decide_eq_true h]

/-- Witness for C4 with a ℕ payload: read at 10ms is fresh, read at one hour
plus 1ms is expired, both returning the written payload. -/
theorem fileCache_roundtrip_witness :
    fileCacheRead (fileCacheWrite (fun _ => none : FileStore ℕ) 0 "bestbuy" 7) 10 "bestbuy"
        = some ⟨7, 0, 10, false⟩
      ∧ fileCacheRead (fileCacheWrite (fun _ => none : FileStore ℕ) 0 "bestbuy" 7)
          3600001 "bestbuy"
        = some ⟨7, 0, 3600001, true⟩ :=
  ⟨(fileCache_roundtrip (fun _ => none) 0 10 "bestbuy" 7).1 (by norm_num [DEFAULT_TTL]),
   (fileCache_roundtrip (fun _ => none) 0 3600001 "bestbuy" 7).2 (by norm_num [DEFAULT_TTL])⟩

/-! ## `services/memoryCache.js` — LRU TTL cache over a JS `Map` -/

/-- One stored cache record `{ value, expiresAt }`. -/
structure CacheEntry (α : Type) where
  value : α
  expiresAt : ℤ
deriving DecidableEq, Repr

/-- The JS `Map` backing a TTL cache: an insertion-ordered association list.
JS `Map` keys are unique; `TtlWF` below states that invariant. -/
abbrev TtlMap (α : Type) := List (String × CacheEntry α)

/-- JS `Map` key uniqueness. -/
abbrev TtlWF {α : Type} (m : TtlMap α) : Prop := (m.map Prod.fst).Nodup

/-- `map.get(key)` (ignoring LRU effects). -/
def mapFind {α : Type} (m : TtlMap α) (key : String) : Option (CacheEntry α) :=
  (m.find? (fun p => p.1 == key)).map (·.2)

/-- `map.delete(key)`: drop the (unique) entry with this key. -/
def mapErase {α : Type} (m : TtlMap α) (key : String) : TtlMap α :=
  m.eraseP (fun p => p.1 == key)

/-- `map.set(key, v)`: update in place when present (insertion order kept),
else append at the end. -/
def mapSet {α : Type} (m : TtlMap α) (key : String) (v : CacheEntry α) : TtlMap α :=
  if m.any (fun p => p.1 == key) then
    m.map (fun p => if p.1 = key then (key, v) else p)
  else m ++ [(key, v)]

/-- `get(key)` of `createTtlCache`: null on miss; delete-and-null on an expired
entry (`expiresAt <= now`); on a live hit, refresh the LRU order by deleting and
re-inserting the entry at the end. Returns the value and the updated map. -/
def cacheGet {α : Type} (m : TtlMap α) (now : ℤ) (key : String) :
    Option α × TtlMap α :=
  match mapFind m key with
  | none => (none, m)
  | some entry =>
      if entry.expiresAt ≤ now then (none, mapErase m key)
      else (some entry.value, mapSet (mapErase m key) key entry)

/-- `set(key, value)` of `createTtlCache`: store with `expiresAt = now + ttlMs`,
then evict the oldest key when size exceeds `maxEntries`. -/
def cacheSet {α : Type} (ttlMs : ℤ) (maxEntries : ℕ) (m : TtlMap α) (now : ℤ)
    (key : String) (v : α) : TtlMap α :=
  let grown := mapSet m key ⟨v, now + ttlMs⟩
  if maxEntries < grown.length then
    match grown with
    | [] => []
    | q :: _ => mapErase grown q.1
  else grown

/-- Pure observation: the live (unexpired) value stored under a key. `get`
returns exactly this value and touches only LRU order and expired entries. -/
def aliveGet {α : Type} (m : TtlMap α) (now : ℤ) (key : String) : Option α :=
  match mapFind m key with
  | none => none
  | some entry => if entry.expiresAt ≤ now then none else some entry.value

/-! ## `services/bestbuyAvailability.js` -/

/-- `conditionCodeMap`: the static label → provider-code table. -/
def conditionCodeMap (cond : String) : Option String :=
  if cond = "fair" then some "0"
  else if cond = "good" then some "1"
  else if cond = "excellent" then some "2"
  else none

/-- `conditionCodeMap[cond] || String(cond)` — every mapped code is a non-empty
(truthy) string, and an unmapped label is stringified and used verbatim. -/
def condCodeOf (cond : String) : String := (conditionCodeMap cond).getD cond

/-- The composite cache key `` `${zipCode}|${sku}|${condCode}` ``. -/
def availKey (zip sku code : String) : String := zip ++ "|" ++ sku ++ "|" ++ code

/-- One availability hit extracted from the response. -/
structure AvailHit where
  sku : String
  conditionCode : String
  storeId : String
  qty : ℚ
  fulfillmentType : Option String
  minDate : Option String
  maxDate : Option String
  minPickupMinutes : Option ℚ
  maxPickupTime : Option String
  displayDateType : Option String
  availabilityToken : Option String
deriving DecidableEq, Repr

/-- `loc.availability` object from the response body. -/
structure RespAvailability where
  availablePickupQuantity : Option ℚ
  fulfillmentType : Option String
  minDate : Option String
  maxDate : Option String
  minPickupMinutes : Option ℚ
  maxPickupTime : Option String
  displayDateType : Option String
  availabilityToken : Option String
deriving DecidableEq, Repr

/-- One `locations[]` element: store id plus optional availability block. -/
structure RespLocation where
  locationId : String
  availability : Option RespAvailability
deriving DecidableEq, Repr

/-- One `items[]` element of the response body. -/
structure RespItem where
  sku : String
  condition : String
  locations : List RespLocation
deriving DecidableEq, Repr

/-- The parsed storeAvailability response body. -/
structure RespJson where
  items : List RespItem
deriving DecidableEq, Repr

/-- `extractHits(respJson)`: walk items × locations, skip a missing
availability block, and admit a hit iff `Number(availablePickupQuantity || 0) > 0`. -/
def extractHits (respJson : RespJson) : List AvailHit :=
  respJson.items.flatMap (fun item =>
    item.locations.flatMap (fun loc =>
      match loc.availability with
      | none => []
      | some av =>
          let qty := jsOrNum av.availablePickupQuantity 0
          if 0 < qty then
            [⟨item.sku, item.condition, loc.locationId, qty,
              av.fulfillmentType, av.minDate, av.maxDate, av.minPickupMinutes,
              av.maxPickupTime, av.displayDateType, av.availabilityToken⟩]
          else []))

/-- One missing (sku, condition-code) combination. -/
structure Combo where
  sku : String
  condition : String
deriving DecidableEq, Repr

/-- One `items[]` element of the request payload. The constant fields
(`reservationToken: null`, empty service/accessory lists) are filled by the
builder below. -/
structure PayloadItem where
  sku : String
  condition : String
  quantity : ℚ
  itemSeqNumber : String
  isTradeIn : Bool
  isLeased : Bool
deriving DecidableEq, Repr

/-- The storeAvailability request payload (`basePayload` fields). -/
structure Payload where
  locationId : Option String
  zipCode : String
  showOnShelf : Bool
  lookupInStoreQuantity : Bool
  xboxAllAccess : Bool
  consolidated : Bool
  showOnlyOnShelf : Bool
  showInStore : Bool
  pickupTypes : List String
  onlyBestBuyLocations : Bool
  items : List PayloadItem
deriving DecidableEq, Repr

/-- `basePayload(zipCode)`. -/
def basePayload (zipCode : String) : Payload :=
  ⟨none, zipCode, true, false, false, false, false, false,
   ["UPS_ACCESS_POINT", "FEDEX_HAL"], true, []⟩

/-- `buildItemsFromCombos`: one payload item per combo, with 1-based sequence
numbers. -/
def buildItemsFromCombos (combos : List Combo) (quantity : ℚ) : List PayloadItem :=
  combos.enum.map (fun pr =>
    ⟨pr.2.sku, pr.2.condition, quantity, toString (pr.1 + 1), false, false⟩)

/-- `ctx.request.post` outcome: HTTP status line plus parsed body. -/
structure RemoteResponse where
  ok : Bool
  status : ℕ
  text : String
  json : RespJson
deriving DecidableEq, Repr

/-- The ambient session and network: `initBestBuySession()` (which rejects when
the browser session cannot be established) and the session-bound POST (which
rejects on transport failure). -/
structure SessionOracles where
  session : Except String Unit
  post : Payload → Except String RemoteResponse

/-- One iteration of the skus × conditions cache-probe loop in
`getStoreAvailability`: a cache hit appends its hits, a miss records the
`{sku, condition: condCode}` combo. -/
def comboStep (now : ℤ) (zip : String)
    (st : TtlMap (List AvailHit) × List AvailHit × List Combo)
    (pair : String × String) :
    TtlMap (List AvailHit) × List AvailHit × List Combo :=
  let code := condCodeOf pair.2
  let key := availKey zip pair.1 code
  match cacheGet st.1 now key with
  | (some v, m') => (m', st.2.1 ++ v, st.2.2)
  | (none, m') => (m', st.2.1, st.2.2 ++ [⟨pair.1, code⟩])

/-- The row-major `for (const sku of skus) for (const cond of conditions)`
iteration order. -/
def skuCondPairs (skus conds : List String) : List (String × String) :=
  skus.flatMap (fun sku => conds.map (fun c => (sku, c)))

/-- The full cache-probe loop of `getStoreAvailability`. -/
def collectCombos (now : ℤ) (zip : String) (skus conds : List String)
    (m : TtlMap (List AvailHit)) :
    TtlMap (List AvailHit) × List AvailHit × List Combo :=
  (skuCondPairs skus conds).foldl (comboStep now zip) (m, [], [])

/-- `{ raw, hits }` as returned by `getStoreAvailability`. -/
structure AvailResult where
  raw : Option RespJson
  hits : List AvailHit
deriving DecidableEq, Repr

/-- `availabilityCache` TTL: 8 minutes. -/
def availTtlMs : ℤ := 8 * 60 * 1000

/-- `availabilityCache` size bound. -/
def availMaxEntries : ℕ := 1000

/-- The composite key of a response hit. -/
def hitKey (zip : String) (h : AvailHit) : String := availKey zip h.sku h.conditionCode

/-- The cache write-back after a remote query: for each missing combo, store the
response hits grouped under that combo's key (the `Map` grouping by key followed
by `grouped.get(key) || []` equals the per-key filter, in response order). -/
def writeback (now : ℤ) (zip : String) (hits : List AvailHit)
    (missing : List Combo) (m : TtlMap (List AvailHit)) : TtlMap (List AvailHit) :=
  missing.foldl (fun acc combo =>
    let key := availKey zip combo.sku combo.condition
    cacheSet availTtlMs availMaxEntries acc now key
      (hits.filter (fun h => hitKey zip h == key))) m

/-- `getStoreAvailability({zipCode, skus, conditions})`. Falsy `zipCode` is the
empty string; a non-array argument is `none`. Thrown JS errors are `Except.error`.
The updated module-level `availabilityCache` is returned alongside the result. -/
def getStoreAvailability (σ : SessionOracles) (now : ℤ)
    (cache : TtlMap (List AvailHit)) (zipCode : String)
    (skus conditions : Option (List String)) :
    Except String (AvailResult × TtlMap (List AvailHit)) :=
  if zipCode = "" then Except.error "zipCode required"
  else
    match skus, conditions with
    | some skuList, some condList =>
        let st := collectCombos now zipCode skuList condList cache
        if st.2.2.length = 0 then
          Except.ok (⟨none, st.2.1⟩, st.1)
        else
          match σ.session with
          | Except.error e => Except.error e
          | Except.ok _ =>
              let payload :=
                { basePayload zipCode with items := buildItemsFromCombos st.2.2 1 }
              match σ.post payload with
              | Except.error e => Except.error e
              | Except.ok res =>
                  if !res.ok then
                    Except.error ("storeAvailability failed " ++ toString res.status
                      ++ " " ++ res.text.take 200)
                  else
                    let hits := extractHits res.json
                    Except.ok (⟨some res.json, st.2.1 ++ hits⟩,
                      writeback now zipCode hits st.2.2 st.1)
    | _, _ => Except.error "skus[] and conditions[] required"

/-! ### Map/cache lemmas -/

theorem mapFind_cons {α : Type} (p : String × CacheEntry α) (t : TtlMap α) (k : String) :
    mapFind (p :: t) k = if p.1 = k then some p.2 else mapFind t k := by
  unfold mapFind
  by_cases h : p.1 = k
  · rw [List.find?_cons_of_pos _ (by simpa using h), if_pos h]
    rfl
  · rw [List.find?_cons_of_neg _ (by simpa using h), if_neg h]

theorem mapErase_cons {α : Type} (p : String × CacheEntry α) (t : TtlMap α) (key : String) :
    mapErase (p :: t) key = if p.1 = key then t else p :: mapErase t key := by
  unfold mapErase
  rw [List.eraseP_cons]
  by_cases h : p.1 = key
  · simp [cond_eq_if, h]
  · simp [cond_eq_if, h]

theorem mapFind_mapErase_ne {α : Type} (m : TtlMap α) (key k : String) (hne : k ≠ key) :
    mapFind (mapErase m key) k = mapFind m k := by
  induction m with
  | nil => rfl
  | cons p t ih =>
    rw [mapErase_cons]
    by_cases hp : p.1 = key
    · rw [if_pos hp, mapFind_cons, if_neg (fun hpk => hne (hp.symm.trans hpk).symm)]
    · rw [if_neg hp, mapFind_cons, mapFind_cons, ih]

theorem forall_ne_of_WF_erase {α : Type} (m : TtlMap α) (key : String) (hwf : TtlWF m) :
    ∀ p ∈ mapErase m key, p.1 ≠ key := by
  induction m with
  | nil => intro p hp; cases hp
  | cons q t ih =>
    intro p hp
    have hwf' : TtlWF t := (List.nodup_cons.mp hwf).2
    have hnotin : q.1 ∉ t.map Prod.fst := (List.nodup_cons.mp hwf).1
    rw [mapErase_cons] at hp
    by_cases hq : q.1 = key
    · rw [if_pos hq] at hp
      intro hpk
      exact hnotin (by
        rw [hq, ← hpk]
        exact List.mem_map_of_mem Prod.fst hp)
    · rw [if_neg hq] at hp
      rcases List.mem_cons.mp hp with rfl | hp'
      · exact hq
      · exact ih hwf' p hp'

theorem TtlWF_mapErase {α : Type} (m : TtlMap α) (key : String) (hwf : TtlWF m) :
    TtlWF (mapErase m key) :=
  List.Nodup.sublist (List.Sublist.map Prod.fst (List.eraseP_sublist m)) hwf

theorem mapFind_mapErase_self {α : Type} (m : TtlMap α) (key : String) (hwf : TtlWF m) :
    mapFind (mapErase m key) key = none := by
  unfold mapFind
  rw [Option.map_eq_none', List.find?_eq_none]
  intro p hp
  simpa using forall_ne_of_WF_erase m key hwf p hp

theorem mapSet_absent {α : Type} (m : TtlMap α) (key : String) (v : CacheEntry α)
    (h : ∀ p ∈ m, p.1 ≠ key) :
    mapSet m key v = m ++ [(key, v)] := by
  unfold mapSet
  rw [if_neg]
  intro hany
  rcases List.any_eq_true.mp hany with ⟨x, hx, hbe⟩
  exact h x hx (by simpa using hbe)

theorem aliveGet_congr {α : Type} {m₁ m₂ : TtlMap α} (now : ℤ) (k : String)
    (h : mapFind m₁ k = mapFind m₂ k) :
    aliveGet m₁ now k = aliveGet m₂ now k := by
  unfold aliveGet
  rw [h]

theorem mapFind_refresh {α : Type} (m : TtlMap α) (key : String) (e : CacheEntry α)
    (hwf : TtlWF m) (hf : mapFind m key = some e) (k : String) :
    mapFind (mapErase m key ++ [(key, e)]) k = mapFind m k := by
  unfold mapFind
  rw [List.find?_append]
  by_cases hk : k = key
  · subst hk
    have h1 : (mapErase m k).find? (fun p => p.1 == k) = none :=
      Option.map_eq_none'.mp (mapFind_mapErase_self m k hwf)
    rw [h1, Option.none_or, List.find?_cons_of_pos _ (by simp)]
    unfold mapFind at hf
    rw [hf]
    rfl
  · have h2 : ([(key, e)] : TtlMap α).find? (fun p => p.1 == k) = none := by
      rw [List.find?_cons_of_neg _ (by simp [Ne.symm hk])]
      rfl
    rw [h2, Option.or_none]
    have h3 := mapFind_mapErase_ne m key k hk
    unfold mapFind at h3
    exact h3

/-- `get` returns exactly the live value of its key and changes no key's live
value: it only deletes the expired entry or refreshes LRU order, and it keeps
the key-uniqueness invariant. -/
theorem cacheGet_spec {α : Type} (m : TtlMap α) (now : ℤ) (key : String)
    (hwf : TtlWF m) :
    (cacheGet m now key).1 = aliveGet m now key
      ∧ TtlWF (cacheGet m now key).2
      ∧ ∀ k, aliveGet (cacheGet m now key).2 now k = aliveGet m now k := by
  unfold cacheGet
  cases hf : mapFind m key with
  | none =>
    refine ⟨?_, hwf, fun k => rfl⟩
    unfold aliveGet
    rw [hf]
  | some e =>
    dsimp only
    by_cases hexp : e.expiresAt ≤ now
    · rw [if_pos hexp]
      refine ⟨?_, TtlWF_mapErase m key hwf, ?_⟩
      · unfold aliveGet
        rw [hf]
        dsimp only
        rw [if_pos hexp]
      · intro k
        by_cases hk : k = key
        · subst hk
          have h1 : aliveGet (mapErase m k) now k = none := by
            unfold aliveGet
            rw [mapFind_mapErase_self m k hwf]
          have h2 : aliveGet m now k = none := by
            unfold aliveGet
            rw [hf]
            dsimp only
            rw [if_pos hexp]
          rw [h1, h2]
        · exact aliveGet_congr now k (mapFind_mapErase_ne m key k hk)
    · rw [if_neg hexp]
      have hset := mapSet_absent (mapErase m key) key e (forall_ne_of_WF_erase m key hwf)
      refine ⟨?_, ?_, ?_⟩
      · unfold aliveGet
        rw [hf]
        dsimp only
        rw [if_neg hexp]
      · rw [hset]
        show ((mapErase m key ++ [(key, e)]).map Prod.fst).Nodup
        rw [List.map_append]
        refine List.Nodup.append (TtlWF_mapErase m key hwf) (by simp) ?_
        intro a ha hb
        rcases List.mem_map.mp ha with ⟨p, hp, rfl⟩
        have := forall_ne_of_WF_erase m key hwf p hp
        simp at hb
        exact this hb
      · intro k
        rw [hset]
        exact aliveGet_congr now k (mapFind_refresh m key e hwf hf k)

/-- Characterization of the cached hits gathered by the probe loop: the live
cache values of the probed keys, concatenated in pair order. -/
def specCached (m : TtlMap (List AvailHit)) (now : ℤ) (zip : String)
    (pairs : List (String × String)) : List AvailHit :=
  (pairs.filterMap (fun pr => aliveGet m now (availKey zip pr.1 (condCodeOf pr.2)))).flatten

/-- Characterization of the missing combos gathered by the probe loop: the
pairs without a live cache value, in pair order, with the condition code
substituted. -/
def specMissing (m : TtlMap (List AvailHit)) (now : ℤ) (zip : String)
    (pairs : List (String × String)) : List Combo :=
  (pairs.filter
      (fun pr => (aliveGet m now (availKey zip pr.1 (condCodeOf pr.2))).isNone)).map
    (fun pr => ⟨pr.1, condCodeOf pr.2⟩)

theorem specCached_congr (now : ℤ) (zip : String) (pairs : List (String × String))
    {m₁ m₂ : TtlMap (List AvailHit)}
    (h : ∀ k, aliveGet m₁ now k = aliveGet m₂ now k) :
    specCached m₁ now zip pairs = specCached m₂ now zip pairs := by
  unfold specCached
  rw [List.filterMap_congr (fun pr _ => h _)]

theorem specMissing_congr (now : ℤ) (zip : String) (pairs : List (String × String))
    {m₁ m₂ : TtlMap (List AvailHit)}
    (h : ∀ k, aliveGet m₁ now k = aliveGet m₂ now k) :
    specMissing m₁ now zip pairs = specMissing m₂ now zip pairs := by
  unfold specMissing
  rw [List.filter_congr (fun pr _ => by rw [h])]

/-- The probe loop: the map keeps every live value unchanged (and stays
well-formed), the gathered hits are the live values of the probed keys in
order, and the missing list is the keyless pairs in order. -/
theorem comboLoop_spec (now : ℤ) (zip : String) :
    ∀ (pairs : List (String × String)) (m : TtlMap (List AvailHit))
      (hits : List AvailHit) (miss : List Combo), TtlWF m →
      (∀ k, aliveGet (pairs.foldl (comboStep now zip) (m, hits, miss)).1 now k
          = aliveGet m now k)
        ∧ TtlWF (pairs.foldl (comboStep now zip) (m, hits, miss)).1
        ∧ (pairs.foldl (comboStep now zip) (m, hits, miss)).2.1
            = hits ++ specCached m now zip pairs
        ∧ (pairs.foldl (comboStep now zip) (m, hits, miss)).2.2
            = miss ++ specMissing m now zip pairs := by
  intro pairs
  induction pairs with
  | nil =>
    intro m hits miss hwf
    exact ⟨fun k => rfl, hwf, by simp [specCached], by simp [specMissing]⟩
  | cons pr rest ih =>
    intro m hits miss hwf
    rw [List.foldl_cons]
    have hcg := cacheGet_spec m now (availKey zip pr.1 (condCodeOf pr.2)) hwf
    have hfst := hcg.1
    have hwf' := hcg.2.1
    have hinv := hcg.2.2
    cases hal : aliveGet m now (availKey zip pr.1 (condCodeOf pr.2)) with
    | some v =>
      have hpair : cacheGet m now (availKey zip pr.1 (condCodeOf pr.2))
          = (some v, (cacheGet m now (availKey zip pr.1 (condCodeOf pr.2))).2) :=
        Prod.ext (hfst.trans hal) rfl
      have hstep : comboStep now zip (m, hits, miss) pr
          = ((cacheGet m now (availKey zip pr.1 (condCodeOf pr.2))).2, hits ++ v, miss) := by
        unfold comboStep
        dsimp only
        rw [hpair]
      rw [hstep]
      obtain ⟨h1, h2, h3, h4⟩ :=
        ih ((cacheGet m now (availKey zip pr.1 (condCodeOf pr.2))).2) (hits ++ v) miss hwf'
      refine ⟨fun k => (h1 k).trans (hinv k), h2, ?_, ?_⟩
      · rw [h3, specCached_congr now zip rest hinv]
        unfold specCached
        simp only [List.filterMap_cons, hal, List.flatten_cons, List.append_assoc]
      · rw [h4, specMissing_congr now zip rest hinv]
        unfold specMissing
        simp [List.filter_cons, hal]
    | none =>
      have hpair : cacheGet m now (availKey zip pr.1 (condCodeOf pr.2))
          = (none, (cacheGet m now (availKey zip pr.1 (condCodeOf pr.2))).2) :=
        Prod.ext (hfst.trans hal) rfl
      have hstep : comboStep now zip (m, hits, miss) pr
          = ((cacheGet m now (availKey zip pr.1 (condCodeOf pr.2))).2, hits,
             miss ++ [⟨pr.1, condCodeOf pr.2⟩]) := by
        unfold comboStep
        dsimp only
        rw [hpair]
      rw [hstep]
      obtain ⟨h1, h2, h3, h4⟩ :=
        ih ((cacheGet m now (availKey zip pr.1 (condCodeOf pr.2))).2) hits
          (miss ++ [⟨pr.1, condCodeOf pr.2⟩]) hwf'
      refine ⟨fun k => (h1 k).trans (hinv k), h2, ?_, ?_⟩
      · rw [h3, specCached_congr now zip rest hinv]
        unfold specCached
        simp only [List.filterMap_cons, hal]
      · rw [h4, specMissing_congr now zip rest hinv]
        unfold specMissing
        simp [List.filter_cons, hal, List.append_assoc]

/-- The probe loop of `getStoreAvailability`, characterized. -/
theorem collectCombos_spec (now : ℤ) (zip : String) (skus conds : List String)
    (m : TtlMap (List AvailHit)) (hwf : TtlWF m) :
    (collectCombos now zip skus conds m).2.1
        = specCached m now zip (skuCondPairs skus conds)
      ∧ (collectCombos now zip skus conds m).2.2
        = specMissing m now zip (skuCondPairs skus conds) := by
  have h := comboLoop_spec now zip (skuCondPairs skus conds) m [] [] hwf
  exact ⟨by simpa using h.2.2.1, by simpa using h.2.2.2⟩

theorem mem_skuCondPairs (skus conds : List String) (pr : String × String) :
    pr ∈ skuCondPairs skus conds ↔ pr.1 ∈ skus ∧ pr.2 ∈ conds := by
  unfold skuCondPairs
  rw [List.mem_flatMap]
  constructor
  · rintro ⟨sku, hsku, hpr⟩
    rcases List.mem_map.mp hpr with ⟨c, hc, rfl⟩
    exact ⟨hsku, hc⟩
  · rintro ⟨h1, h2⟩
    exact ⟨pr.1, h1, List.mem_map.mpr ⟨pr.2, h2, rfl⟩⟩

theorem mem_buildItems (combos : List Combo) (q : ℚ) (it : PayloadItem)
    (h : it ∈ buildItemsFromCombos combos q) :
    (⟨it.sku, it.condition⟩ : Combo) ∈ combos := by
  unfold buildItemsFromCombos at h
  rcases List.mem_map.mp h with ⟨pr, hpr, rfl⟩
  obtain ⟨i, c⟩ := pr
  have hm := List.mem_enum hpr
  have : c ∈ combos := hm.2 ▸ List.getElem_mem hm.1
  simpa using this

/-- Shared resolution lemma: with non-empty zip, an established session and a
remote POST that answers ok, `getStoreAvailability` resolves (for any skus,
conditions and cache). -/
theorem getStoreAvailability_resolves (σ : SessionOracles) (now : ℤ)
    (cache : TtlMap (List AvailHit)) (zip : String) (skus conds : List String)
    (hzip : zip ≠ "") (hsess : σ.session = Except.ok ())
    (hpost : ∀ p, ∃ r, σ.post p = Except.ok r ∧ r.ok = true) :
    ∃ out, getStoreAvailability σ now cache zip (some skus) (some conds)
        = Except.ok out := by
  unfold getStoreAvailability
  rw [if_neg hzip]
  dsimp only
  by_cases hm : (collectCombos now zip skus conds cache).2.2.length = 0
  · rw [if_pos hm]
    exact ⟨_, rfl⟩
  · rw [if_neg hm, hsess]
    obtain ⟨r, hr, hok⟩ := hpost _
    rw [hr]
    dsimp only
    have hnot : (!r.ok) = false := by rw [hok]; rfl
    rw [if_neg (by simp [hnot])]
    exact ⟨_, rfl⟩

/-- C7: the composite cache key is zip|sku|conditionCode; a pair with a live
(unexpired) cached entry is excluded from the missing combos and from the
remote payload items and its cached hits are gathered instead; and when every
requested pair is cached the function returns the cached hits and touches
neither the session nor the network — the same pure cache answer for every
oracle, including a failing one. -/
theorem getStoreAvailability_cache_key_shortcircuit
    (now : ℤ) (cache : TtlMap (List AvailHit)) (zip : String)
    (skus conds : List String) (hwf : TtlWF cache) :
    (∀ sku ∈ skus, ∀ cond ∈ conds, ∀ v,
        aliveGet cache now (availKey zip sku (condCodeOf cond)) = some v →
          ((⟨sku, condCodeOf cond⟩ : Combo)
              ∉ (collectCombos now zip skus conds cache).2.2
            ∧ (∀ it ∈ buildItemsFromCombos (collectCombos now zip skus conds cache).2.2 1,
                ¬(it.sku = sku ∧ it.condition = condCodeOf cond))
            ∧ ∀ h ∈ v, h ∈ (collectCombos now zip skus conds cache).2.1))
      ∧ ((∀ sku ∈ skus, ∀ cond ∈ conds,
            (aliveGet cache now (availKey zip sku (condCodeOf cond))).isSome = true) →
          zip ≠ "" →
          ∀ σ : SessionOracles,
            getStoreAvailability σ now cache zip (some skus) (some conds)
              = Except.ok (⟨none, (collectCombos now zip skus conds cache).2.1⟩,
                  (collectCombos now zip skus conds cache).1)) := by
  obtain ⟨hC, hM⟩ := collectCombos_spec now zip skus conds cache hwf
  constructor
  · intro sku hsku cond hcond v hv
    have hnotin : (⟨sku, condCodeOf cond⟩ : Combo)
        ∉ (collectCombos now zip skus conds cache).2.2 := by
      rw [hM]
      intro hmem
      unfold specMissing at hmem
      rcases List.mem_map.mp hmem with ⟨pr, hpr, heq⟩
      have hpr2 := List.mem_filter.mp hpr
      have h1 : pr.1 = sku := congrArg Combo.sku heq
      have h2 : condCodeOf pr.2 = condCodeOf cond := congrArg Combo.condition heq
      have hnone := hpr2.2
      simp only at hnone
      rw [h1, h2, hv] at hnone
      simp at hnone
    refine ⟨hnotin, ?_, ?_⟩
    · rintro it hit ⟨hsk, hcd⟩
      exact hnotin (by rw [← hsk, ← hcd]; exact mem_buildItems _ _ _ hit)
    · intro h hh
      rw [hC]
      unfold specCached
      refine List.mem_flatten.mpr ⟨v, ?_, hh⟩
      exact List.mem_filterMap.mpr
        ⟨(sku, cond), (mem_skuCondPairs skus conds (sku, cond)).mpr ⟨hsku, hcond⟩, hv⟩
  · intro hall hzip σ
    have hmiss : (collectCombos now zip skus conds cache).2.2 = [] := by
      rw [hM]
      unfold specMissing
      have hfil : (skuCondPairs skus conds).filter
          (fun pr => (aliveGet cache now (availKey zip pr.1 (condCodeOf pr.2))).isNone)
          = [] := by
        rw [List.filter_eq_nil_iff]
        intro pr hpr
        have hm := (mem_skuCondPairs skus conds pr).mp hpr
        have hs := hall pr.1 hm.1 pr.2 hm.2
        rcases Option.isSome_iff_exists.mp hs with ⟨v, hv⟩
        simp [hv]
      rw [hfil]
      rfl
    unfold getStoreAvailability
    rw [if_neg hzip]
    dsimp only
    rw [if_pos (by rw [hmiss]; rfl)]

/-- Concrete oracles: session established, POST answered with a non-ok (500)
response. -/
def σbadResp : SessionOracles :=
  ⟨Except.ok (), fun _ => Except.ok ⟨false, 500, "", ⟨[]⟩⟩⟩

/-- Concrete oracles: session establishment fails. -/
def σsessFail : SessionOracles :=
  ⟨Except.error "launch failed", fun _ => Except.error "unreachable"⟩

/-- Concrete oracles: session established, POST answers ok with an empty body. -/
def σokEmpty : SessionOracles :=
  ⟨Except.ok (), fun _ => Except.ok ⟨true, 200, "", ⟨[]⟩⟩⟩

set_option maxRecDepth 4000 in
/-- C8 counterexample: the session is established, yet the resolution rejects —
the single batched query's non-ok response surfaces as a hard error, so
rejection is not limited to session-establishment failure. -/
theorem getStoreAvailability_rejects_despite_session :
    σbadResp.session = Except.ok ()
      ∧ getStoreAvailability σbadResp 0 [] "30303" (some ["6602747"]) (some ["fair"])
          = Except.error "storeAvailability failed 500 " := by
  exact ⟨rfl, rfl⟩

/-- C8 (amended): a session-establishment failure propagates as exactly that
rejection (never an empty success); and when the session is established and the
batched remote query answers ok, the resolution resolves — so a hard error
arises only from invalid arguments, session failure, or the batched remote
query failing or answering non-ok. -/
theorem getStoreAvailability_error_semantics (σ : SessionOracles) (now : ℤ)
    (cache : TtlMap (List AvailHit)) (zip : String) (skus conds : List String) :
    (∀ e, zip ≠ "" →
        (collectCombos now zip skus conds cache).2.2.length ≠ 0 →
        σ.session = Except.error e →
        getStoreAvailability σ now cache zip (some skus) (some conds)
          = Except.error e)
      ∧ (zip ≠ "" → σ.session = Except.ok () →
          (∀ p, ∃ r, σ.post p = Except.ok r ∧ r.ok = true) →
          ∃ out, getStoreAvailability σ now cache zip (some skus) (some conds)
              = Except.ok out) := by
  constructor
  · intro e hzip hm hsess
    unfold getStoreAvailability
    rw [if_neg hzip]
    dsimp only
    rw [if_neg hm, hsess]
  · exact fun hzip hsess hpost =>
      getStoreAvailability_resolves σ now cache zip skus conds hzip hsess hpost

/-- Witness for C8: concrete session failure rejects with that message, and a
concrete established session with an ok response resolves. -/
theorem getStoreAvailability_error_semantics_witness :
    getStoreAvailability σsessFail 0 [] "30303" (some ["6602747"]) (some ["fair"])
        = Except.error "launch failed"
      ∧ ∃ out, getStoreAvailability σokEmpty 0 [] "30303" (some ["6602747"]) (some ["fair"])
          = Except.ok out := by
  constructor
  · exact (getStoreAvailability_error_semantics σsessFail 0 [] "30303" ["6602747"]
      ["fair"]).1 "launch failed" (by decide) (by decide) rfl
  · exact (getStoreAvailability_error_semantics σokEmpty 0 [] "30303" ["6602747"]
      ["fair"]).2 (by decide) rfl (fun p => ⟨⟨true, 200, "", ⟨[]⟩⟩, rfl, rfl⟩)

/-- C10: an unknown condition label is stringified and used verbatim — it
becomes the condition code in the composite cache key and in the missing combo
(hence the remote items) — and the resolution never rejects on account of an
unknown label: with valid arguments, an established session and an ok response
it resolves for every conditions array. -/
theorem getStoreAvailability_unknown_condition (σ : SessionOracles) (now : ℤ)
    (cache : TtlMap (List AvailHit)) (zip : String) (skus conds : List String)
    (cond : String) :
    (conditionCodeMap cond = none → condCodeOf cond = cond)
      ∧ (conditionCodeMap cond = none → TtlWF cache →
          ∀ sku ∈ skus, cond ∈ conds →
            aliveGet cache now (availKey zip sku cond) = none →
            (⟨sku, cond⟩ : Combo) ∈ (collectCombos now zip skus conds cache).2.2)
      ∧ (zip ≠ "" → σ.session = Except.ok () →
          (∀ p, ∃ r, σ.post p = Except.ok r ∧ r.ok = true) →
          ∃ out, getStoreAvailability σ now cache zip (some skus) (some conds)
              = Except.ok out) := by
  refine ⟨?_, ?_, ?_⟩
  · intro h
    unfold condCodeOf
    rw [h]
    rfl
  · intro h hwf sku hsku hcond hnone
    have hcode : condCodeOf cond = cond := by
      unfold condCodeOf
      rw [h]
      rfl
    have hM := (collectCombos_spec now zip skus conds cache hwf).2
    rw [hM]
    unfold specMissing
    refine List.mem_map.mpr ⟨(sku, cond), ?_, by simp [hcode]⟩
    refine List.mem_filter.mpr
      ⟨(mem_skuCondPairs skus conds (sku, cond)).mpr ⟨hsku, hcond⟩, ?_⟩
    simp [hcode, hnone]
  · exact fun hzip hsess hpost =>
      getStoreAvailability_resolves σ now cache zip skus conds hzip hsess hpost

/-- Witness for C10 at the unknown label "mint". -/
theorem getStoreAvailability_unknown_condition_witness :
    condCodeOf "mint" = "mint"
      ∧ (⟨"123", "mint"⟩ : Combo) ∈ (collectCombos 0 "30303" ["123"] ["mint"] []).2.2
      ∧ ∃ out, getStoreAvailability σokEmpty 0 [] "30303" (some ["123"]) (some ["mint"])
          = Except.ok out := by
  have h := getStoreAvailability_unknown_condition σokEmpty 0 [] "30303" ["123"] ["mint"] "mint"
  exact ⟨h.1 rfl,
    h.2.1 rfl List.nodup_nil "123" (by decide) (by decide) rfl,
    h.2.2 (by decide) rfl (fun p => ⟨⟨true, 200, "", ⟨[]⟩⟩, rfl, rfl⟩)⟩

/-- A concrete live cache entry for the C7 witness. -/
def hit0 : AvailHit := ⟨"6602747", "0", "42", 3, none, none, none, none, none, none, none⟩

/-- A one-entry availability cache holding `hit0` unexpired at time 0. -/
def cache0 : TtlMap (List AvailHit) := [("30303|6602747|0", ⟨[hit0], 100⟩)]

/-- Witness for C7: with the lone requested pair cached, the combo is excluded,
its cached hit is returned, and the call succeeds against a failing session
oracle — no session or network use. -/
theorem getStoreAvailability_cache_key_shortcircuit_witness :
    ((⟨"6602747", "0"⟩ : Combo) ∉ (collectCombos 0 "30303" ["6602747"] ["fair"] cache0).2.2)
      ∧ hit0 ∈ (collectCombos 0 "30303" ["6602747"] ["fair"] cache0).2.1
      ∧ getStoreAvailability σsessFail 0 cache0 "30303" (some ["6602747"]) (some ["fair"])
          = Except.ok (⟨none, (collectCombos 0 "30303" ["6602747"] ["fair"] cache0).2.1⟩,
              (collectCombos 0 "30303" ["6602747"] ["fair"] cache0).1) := by
  have h := getStoreAvailability_cache_key_shortcircuit 0 cache0 "30303" ["6602747"]
    ["fair"] (List.nodup_singleton _)
  have hv : aliveGet cache0 0 (availKey "30303" "6602747" (condCodeOf "fair"))
      = some [hit0] := rfl
  have ha := h.1 "6602747" (by decide) "fair" (by decide) [hit0] hv
  refine ⟨ha.1, ha.2.2 hit0 (by decide), ?_⟩
  refine h.2 ?_ (by decide) σsessFail
  intro sku hs cond hc
  have h1 : sku = "6602747" := List.mem_singleton.mp hs
  have h2 : cond = "fair" := List.mem_singleton.mp hc
  subst h1
  subst h2
  rw [hv]
  rfl

/-! ## The `/api/stores/` nationwide scan (server handler) -/

/-- One store record from the public stores API, plus the `searchedFrom` tag the
handler adds on first sight (`none` on arrival). Fields not used by the scan
logic are omitted. -/
structure ScanStore where
  storeID : String
  distance : Option ℚ
  searchedFrom : Option String
deriving DecidableEq, Repr

/-- A parsed `/v1/products/{sku}/stores.json` response. -/
structure StoresResp where
  stores : List ScanStore
deriving DecidableEq, Repr

/-- The fixed sampling metros used for the nationwide scan. -/
def metroZips : List String :=
  ["10001", "90001", "60601", "77001", "98101", "33101", "80201", "30301", "96813"]

/-- One iteration of the per-zip loop: a failed fetch is logged and skipped
(the consecutive-failure counter only schedules extra delays and is elided); a
successful fetch appends every store whose id is unseen, tagging it with the
current zip. State is (seen store ids, collected stores). -/
def scanZipStep (fetch : String → Except String StoresResp)
    (st : List String × List ScanStore) (zip : String) :
    List String × List ScanStore :=
  match fetch zip with
  | Except.error _ => st
  | Except.ok data =>
      data.stores.foldl (fun acc store =>
        if store.storeID ∈ acc.1 then acc
        else (acc.1 ++ [store.storeID],
              acc.2 ++ [{ store with searchedFrom := some zip }])) st

/-- The whole zip loop of the `/api/stores/` handler. -/
def scanZips (fetch : String → Except String StoresResp) (zips : List String) :
    List String × List ScanStore :=
  zips.foldl (scanZipStep fetch) ([], [])

/-- `(s.distance || 9999)` — undefined and 0 are falsy. -/
def jsDist (s : ScanStore) : ℚ := jsOrNum s.distance 9999

/-- The sort comparator `(a, b) => local-first, then distance`: `a` may stay
before `b` iff the comparator is ≤ 0. -/
def storeLE (postalCode : String) (a b : ScanStore) : Bool :=
  let aLocal := a.searchedFrom == some postalCode
  let bLocal := b.searchedFrom == some postalCode
  if aLocal && !bLocal then true
  else if !aLocal && bLocal then false
  else decide (jsDist a ≤ jsDist b)

/-- Zip-code list selection: user zip first then metros when nationwide; just
the user zip locally; `none` models the "Postal code required" error. -/
def endpointZips (postalCode : Option String) (nationwide : Bool) :
    Option (List String) :=
  if nationwide then
    some (match postalCode with
          | some p => p :: metroZips
          | none => metroZips)
  else
    match postalCode with
    | some p => some [p]
    | none => none

/-- The `/api/stores/` handler after the sku / API-key guards: scan, sort when a
postal code was supplied and stores were found (JS `sort` is stable, modelled by
`List.mergeSort`), and return the top 25. -/
def storesEndpoint (fetch : String → Except String StoresResp)
    (postalCode : Option String) (nationwide : Bool) : Option (List ScanStore) :=
  match endpointZips postalCode nationwide with
  | none => none
  | some zipCodes =>
      let allStores := (scanZips fetch zipCodes).2
      let sorted :=
        match postalCode with
        | some p => if 0 < allStores.length then allStores.mergeSort (storeLE p) else allStores
        | none => allStores
      some (sorted.take 25)

/-- The per-(zip, store) step of the scan, over the flattened annotated
responses. -/
def tagStep (st : List String × List ScanStore) (pr : String × ScanStore) :
    List String × List ScanStore :=
  if pr.2.storeID ∈ st.1 then st
  else (st.1 ++ [pr.2.storeID], st.2 ++ [{ pr.2 with searchedFrom := some pr.1 }])

/-- All successful responses, flattened in query order, each store annotated
with the zip whose query produced it. -/
def flatAnnotated (fetch : String → Except String StoresResp) (zips : List String) :
    List (String × ScanStore) :=
  zips.flatMap (fun z =>
    match fetch z with
    | Except.error _ => []
    | Except.ok data => data.stores.map (fun s => (z, s)))

/-- First-seen deduplication by store id with source tagging — the intended
meaning of the scan loop. -/
def dedupFirst : List String → List (String × ScanStore) → List ScanStore
  | _, [] => []
  | seen, (z, s) :: rest =>
      if s.storeID ∈ seen then dedupFirst seen rest
      else { s with searchedFrom := some z } :: dedupFirst (seen ++ [s.storeID]) rest

theorem scanZipStep_eq_tagFold (fetch : String → Except String StoresResp)
    (st : List String × List ScanStore) (z : String) :
    scanZipStep fetch st z
      = (match fetch z with
         | Except.error _ => ([] : List (String × ScanStore))
         | Except.ok data => data.stores.map (fun s => (z, s))).foldl tagStep st := by
  unfold scanZipStep
  cases fetch z with
  | error e => rfl
  | ok data =>
    dsimp only
    rw [List.foldl_map]
    rfl

theorem scanZips_eq_tagFold (fetch : String → Except String StoresResp) :
    ∀ (zips : List String) (st : List String × List ScanStore),
      zips.foldl (scanZipStep fetch) st = (flatAnnotated fetch zips).foldl tagStep st := by
  intro zips
  induction zips with
  | nil => intro st; rfl
  | cons z rest ih =>
    intro st
    rw [List.foldl_cons, ih, scanZipStep_eq_tagFold]
    unfold flatAnnotated
    rw [List.flatMap_cons, List.foldl_append]

/-- The tag fold, characterized: seen ids mirror the collected stores, ids stay
nodup, and the appended part is exactly the first-seen dedup of the input. -/
theorem tagFold_spec :
    ∀ (prs : List (String × ScanStore)) (st : List String × List ScanStore),
      st.1 = st.2.map (·.storeID) → st.1.Nodup →
      (prs.foldl tagStep st).1 = (prs.foldl tagStep st).2.map (·.storeID)
        ∧ (prs.foldl tagStep st).1.Nodup
        ∧ (prs.foldl tagStep st).2 = st.2 ++ dedupFirst st.1 prs := by
  intro prs
  induction prs with
  | nil =>
    intro st h1 h2
    exact ⟨h1, h2, by simp [dedupFirst]⟩
  | cons pr rest ih =>
    intro st h1 h2
    obtain ⟨z, s⟩ := pr
    rw [List.foldl_cons]
    by_cases hmem : s.storeID ∈ st.1
    · have hstep : tagStep st (z, s) = st := by
        unfold tagStep
        rw [if_pos hmem]
      rw [hstep]
      obtain ⟨g1, g2, g3⟩ := ih st h1 h2
      refine ⟨g1, g2, ?_⟩
      rw [g3]
      simp only [dedupFirst]
      rw [if_pos hmem]
    · have hstep : tagStep st (z, s)
          = (st.1 ++ [s.storeID], st.2 ++ [{ s with searchedFrom := some z }]) := by
        unfold tagStep
        rw [if_neg hmem]
      rw [hstep]
      have h1' : st.1 ++ [s.storeID]
          = (st.2 ++ [{ s with searchedFrom := some z }]).map (fun q : ScanStore => q.storeID) := by
        rw [List.map_append, ← h1]
        rfl
      have h2' : (st.1 ++ [s.storeID]).Nodup := by
        refine List.Nodup.append h2 (List.nodup_singleton _) ?_
        intro a ha hb
        rw [List.mem_singleton.mp hb] at ha
        exact hmem ha
      obtain ⟨g1, g2, g3⟩ :=
        ih (st.1 ++ [s.storeID], st.2 ++ [{ s with searchedFrom := some z }]) h1' h2'
      refine ⟨g1, g2, ?_⟩
      rw [g3]
      simp only [dedupFirst]
      rw [if_neg hmem]
      simp [List.append_assoc]

/-- Every deduplicated store is one of the annotated response stores, tagged
with the zip that produced it. -/
theorem mem_dedupFirst (s : ScanStore) :
    ∀ (prs : List (String × ScanStore)) (seen : List String),
      s ∈ dedupFirst seen prs →
      ∃ pr ∈ prs, s = { pr.2 with searchedFrom := some pr.1 } := by
  intro prs
  induction prs with
  | nil => intro seen h; cases h
  | cons pr rest ih =>
    intro seen h
    obtain ⟨z, s₀⟩ := pr
    unfold dedupFirst at h
    by_cases hmem : s₀.storeID ∈ seen
    · rw [if_pos hmem] at h
      obtain ⟨q, hq, heq⟩ := ih seen h
      exact ⟨q, List.mem_cons_of_mem _ hq, heq⟩
    · rw [if_neg hmem] at h
      rcases List.mem_cons.mp h with rfl | h'
      · exact ⟨(z, s₀), List.mem_cons_self _ _, rfl⟩
      · obtain ⟨q, hq, heq⟩ := ih _ h'
        exact ⟨q, List.mem_cons_of_mem _ hq, heq⟩

theorem scanZips_dedup_eq (fetch : String → Except String StoresResp)
    (zips : List String) :
    (scanZips fetch zips).2 = dedupFirst [] (flatAnnotated fetch zips) := by
  have heq := scanZips_eq_tagFold fetch zips ([], [])
  have hq := tagFold_spec (flatAnnotated fetch zips) ([], []) rfl List.nodup_nil
  calc (scanZips fetch zips).2
      = ((flatAnnotated fetch zips).foldl tagStep ([], [])).2 := by
        unfold scanZips
        rw [heq]
    _ = dedupFirst [] (flatAnnotated fetch zips) := by simpa using hq.2.2

theorem scanZips_ids_nodup (fetch : String → Except String StoresResp)
    (zips : List String) :
    ((scanZips fetch zips).2.map (fun q : ScanStore => q.storeID)).Nodup := by
  have heq := scanZips_eq_tagFold fetch zips ([], [])
  have hq := tagFold_spec (flatAnnotated fetch zips) ([], []) rfl List.nodup_nil
  have h2 : (scanZips fetch zips).2 = ((flatAnnotated fetch zips).foldl tagStep ([], [])).2 := by
    unfold scanZips
    rw [heq]
  rw [h2, ← hq.1]
  exact hq.2.1

theorem take_of_perm_preserves (l base : List ScanStore) (n : ℕ)
    (hperm : l.Perm base)
    (hnodup : (base.map (fun q : ScanStore => q.storeID)).Nodup) :
    (((l.take n).map (fun q : ScanStore => q.storeID)).Nodup
      ∧ ∀ s ∈ l.take n, s ∈ base) := by
  constructor
  · have h1 : List.Sublist ((l.take n).map (fun q : ScanStore => q.storeID))
        (l.map (fun q : ScanStore => q.storeID)) :=
      List.Sublist.map _ (List.take_sublist n l)
    have h2 : (l.map (fun q : ScanStore => q.storeID)).Nodup :=
      ((hperm.map (fun q : ScanStore => q.storeID)).nodup_iff).mpr hnodup
    exact List.Nodup.sublist h1 h2
  · intro s hs
    exact hperm.mem_iff.mp (List.take_subset n l hs)

/-- C9: the nationwide scan deduplicates by store id. The collected list equals
the first-seen dedup (with `searchedFrom` tagging) of the flattened successful
responses in query order, its store ids are pairwise distinct, every retained
entry is one response store tagged with the zip that produced it, a failed zip
query is skipped without affecting the rest of the scan, and the handler's
final (sorted, top-25) list keeps ids distinct and draws only from the scan. -/
theorem storesScan_dedup (fetch : String → Except String StoresResp) :
    (∀ zips : List String,
        (scanZips fetch zips).2 = dedupFirst [] (flatAnnotated fetch zips)
          ∧ ((scanZips fetch zips).2.map (fun q : ScanStore => q.storeID)).Nodup
          ∧ ∀ s ∈ (scanZips fetch zips).2, ∃ pr ∈ flatAnnotated fetch zips,
              s = { pr.2 with searchedFrom := some pr.1 })
      ∧ (∀ (zs₁ zs₂ : List String) (z e : String), fetch z = Except.error e →
          scanZips fetch (zs₁ ++ z :: zs₂) = scanZips fetch (zs₁ ++ zs₂))
      ∧ (∀ (postalCode : Option String) (nationwide : Bool) (zips : List String)
            (r : List ScanStore),
          endpointZips postalCode nationwide = some zips →
          storesEndpoint fetch postalCode nationwide = some r →
          ((r.map (fun q : ScanStore => q.storeID)).Nodup
            ∧ ∀ s ∈ r, s ∈ (scanZips fetch zips).2)) := by
  refine ⟨?_, ?_, ?_⟩
  · intro zips
    refine ⟨scanZips_dedup_eq fetch zips, scanZips_ids_nodup fetch zips, ?_⟩
    intro s hs
    rw [scanZips_dedup_eq fetch zips] at hs
    exact mem_dedupFirst s (flatAnnotated fetch zips) [] hs
  · intro zs₁ zs₂ z e herr
    unfold scanZips
    rw [List.foldl_append, List.foldl_append, List.foldl_cons]
    congr 1
    unfold scanZipStep
    rw [herr]
  · intro postalCode nationwide zips r hz hr
    unfold storesEndpoint at hr
    rw [hz] at hr
    dsimp only at hr
    have hnod := scanZips_ids_nodup fetch zips
    cases postalCode with
    | none =>
      dsimp only at hr
      have hr' : r = (scanZips fetch zips).2.take 25 := (Option.some.inj hr).symm
      rw [hr']
      exact take_of_perm_preserves _ _ 25 (List.Perm.refl _) hnod
    | some p =>
      dsimp only at hr
      by_cases hlen : 0 < (scanZips fetch zips).2.length
      · rw [if_pos hlen] at hr
        have hr' : r = ((scanZips fetch zips).2.mergeSort (storeLE p)).take 25 :=
          (Option.some.inj hr).symm
        rw [hr']
        exact take_of_perm_preserves _ _ 25
          (List.mergeSort_perm (scanZips fetch zips).2 (storeLE p)) hnod
      · rw [if_neg hlen] at hr
        have hr' : r = (scanZips fetch zips).2.take 25 := (Option.some.inj hr).symm
        rw [hr']
        exact take_of_perm_preserves _ _ 25 (List.Perm.refl _) hnod

/-- A concrete fetch oracle for the C9 witness: "Z1" fails, "Z2" and "Z3" both
report store "42" (first seen from "Z2"). -/
def demoFetch : String → Except String StoresResp := fun z =>
  if z = "Z1" then Except.error "boom"
  else if z = "Z2" then Except.ok ⟨[⟨"42", none, none⟩, ⟨"7", some 5, none⟩]⟩
  else if z = "Z3" then Except.ok ⟨[⟨"42", some 1, none⟩]⟩
  else Except.ok ⟨[]⟩

/-- Witness for C9 on `demoFetch`: distinct ids in the scan, the failed zip
"Z1" is skipped, and the endpoint's final list stays distinct and scan-sourced. -/
theorem storesScan_dedup_witness :
    ((scanZips demoFetch ["Z1", "Z2", "Z3"]).2.map (fun q : ScanStore => q.storeID)).Nodup
      ∧ scanZips demoFetch ([] ++ "Z1" :: ["Z2", "Z3"]) = scanZips demoFetch ([] ++ ["Z2", "Z3"])
      ∧ (([] : List ScanStore).map (fun q : ScanStore => q.storeID)).Nodup
      ∧ ∀ s ∈ ([] : List ScanStore), s ∈ (scanZips demoFetch ["Z9"]).2 := by
  have h := storesScan_dedup demoFetch
  have h3 := h.2.2 (some "Z9") false ["Z9"] [] rfl rfl
  exact ⟨(h.1 ["Z1", "Z2", "Z3"]).2.1, h.2.1 [] ["Z2", "Z3"] "Z1" "boom" rfl, h3.1, h3.2⟩

end BBDealer
